import Mathlib

/-!
Verification of the SecurePay portal server (Express + MongoDB / in-memory
fallback).  The definitions below are a shallow embedding of the server code:
JavaScript numbers carrying money amounts are modelled as exact rationals,
millisecond timestamps as naturals, Mongo documents as Lean structures (and,
where a claim is about the presence of a field, as association lists).
External libraries (`jsonwebtoken`, `bcryptjs`, the Mongo driver) are modelled
by their documented interface behaviour; everything else is translated from
the two server variants (`src/server/index.ts` and the extended variant) line
by line.
-/

namespace SecurePay

/-! ## Rate limiter (`checkRateLimit`)

The server keeps `rateLimitMap = Map<string, {count, resetTime}>`.  We model
the map as an association list keyed by strings, `Date.now()` as a `Nat`
parameter, and the mutation as explicit state passing. -/

structure RateEntry where
  count : Nat
  resetTime : Nat
deriving DecidableEq

abbrev RateMap := List (String × RateEntry)

def RateMap.get (m : RateMap) (k : String) : Option RateEntry :=
  (m.find? (fun e => e.1 == k)).map (·.2)

def RateMap.set (m : RateMap) (k : String) (v : RateEntry) : RateMap :=
  match m with
  | [] => [(k, v)]
  | (k₀, v₀) :: rest =>
    if k₀ == k then (k, v) :: rest else (k₀, v₀) :: RateMap.set rest k v

/-- The server function `checkRateLimit(key, maxRequests, windowMs)`, with the
current time `now` and the mutable map made explicit.  Returns the boolean
result together with the updated map. -/
def checkRateLimit (m : RateMap) (key : String) (maxRequests windowMs now : Nat) :
    Bool × RateMap :=
  match m.get key with
  | none => (true, m.set key ⟨1, now + windowMs⟩)
  | some userLimit =>
    if now > userLimit.resetTime then
      (true, m.set key ⟨1, now + windowMs⟩)
    else if userLimit.count ≥ maxRequests then
      (false, m)
    else
      (true, m.set key ⟨userLimit.count + 1, userLimit.resetTime⟩)

/-- Run a sequence of `checkRateLimit` calls for one key at the given times,
collecting the boolean results. -/
def runRateCalls (m : RateMap) (key : String) (maxRequests windowMs : Nat) :
    List Nat → List Bool × RateMap
  | [] => ([], m)
  | t :: ts =>
    let step := checkRateLimit m key maxRequests windowMs t
    let rest := runRateCalls step.2 key maxRequests windowMs ts
    (step.1 :: rest.1, rest.2)

/-! ## Store documents

Documents of the three collections, translated from the objects the server
inserts.  `is_staff : Option Bool` distinguishes a document that carries the
field (the extended server variant writes `is_staff: false` on registration)
from one that omits it (the base variant): JavaScript reads of a missing
field yield `undefined`, whose boolean coercion `!!x` is modelled by
`Option.getD · false`.  Timestamps (`Date`) are naturals (milliseconds);
money amounts are exact rationals. -/

structure UserDoc where
  _id : String
  email : String
  password_hash : String
  username : Option String := none
  account_number : Option String := none
  full_name : Option String := none
  is_verified : Bool
  is_active : Bool
  is_staff : Option Bool := none
  created_at : Nat
  updated_at : Nat
deriving DecidableEq

structure SessionDoc where
  _id : String
  user_id : String
  session_token : String
  expires_at : Nat
  ip_address : String
  user_agent : String
  is_active : Bool
  created_at : Nat
  updated_at : Nat
deriving DecidableEq

structure TxDoc where
  _id : String
  user_id : String
  user_account : Option String
  swift_code : Option String
  recipient_name : String
  recipient_account : String
  recipient_bank : String
  recipient_country : String
  amount : ℚ
  currency : String
  exchange_rate : Option ℚ := none
  converted_amount : Option ℚ := none
  purpose : Option String := none
  reference_number : String
  status : String
  transaction_fee : ℚ
  is_processed : Bool
  processed_at : Option Nat := none
  created_at : Nat
  updated_at : Nat
deriving DecidableEq

/-- The three collections of the store (`createInMemoryDb`'s `collections`
record; the documents live in insertion order). -/
structure Db where
  users : List UserDoc
  user_sessions : List SessionDoc
  payment_transactions : List TxDoc
deriving DecidableEq

/-- Model of `updateOne`: apply `f` to the first element satisfying `p`, leaving the
rest of the list unchanged (both the in-memory `updateOne` and Mongo's
`updateOne`/`findOneAndUpdate` touch a single matching document). -/
def updateFirst (p : α → Bool) (f : α → α) : List α → List α
  | [] => []
  | x :: xs => if p x then f x :: xs else x :: updateFirst p f xs

/-! ## Session/Token Authority and Authorization Gate -/

/-- The JSON envelope of a response: `200 {success:true, data}` or
`{success:false, error}` with an HTTP status. -/
inductive ApiResp (α : Type) where
  | ok (data : α)
  | err (status : Nat) (msg : String)
deriving DecidableEq

/-- The resolved principal attached to `req.user`: the fields of the merged
session/user object that the handlers read. -/
structure Principal where
  uid : String
  is_staff : Bool
  session_token : Option String
  account_number : Option String
deriving DecidableEq

/-- Principal for the session path: `req.user = {...session, ...user}` with
`is_staff` coerced to a boolean. -/
def mkSessionPrincipal (s : SessionDoc) (u : UserDoc) : Principal :=
  { uid := u._id
    is_staff := u.is_staff.getD false
    session_token := some s.session_token
    account_number := u.account_number }

/-- Principal for the signed-token path: a minimal `req.user` built from the
user record only (no `session_token` field). -/
def mkJwtPrincipal (u : UserDoc) : Principal :=
  { uid := u._id
    is_staff := u.is_staff.getD false
    session_token := none
    account_number := u.account_number }

/-- The lookup `findOne('user_sessions', {session_token, is_active: true,
expires_at: {$gt: new Date()}})`. -/
def findActiveSession (db : Db) (now : Nat) (tok : String) : Option SessionDoc :=
  db.user_sessions.find? fun s =>
    s.session_token == tok && s.is_active && decide (now < s.expires_at)

/-- The helper `findUserById`: `findOne('users', {_id})`. -/
def findUserById (db : Db) (uid : String) : Option UserDoc :=
  db.users.find? fun u => u._id == uid

/-- The `authMiddleware` of the extended server variant, with the external
`jsonwebtoken` library abstracted as `jwtVer : String → Option String`
(`jwt.verify` with the process secret and the clock already applied: it
returns the `sub` claim when the signature is valid and the token
unexpired, and fails otherwise). `strict` is `SESSION_STRICT_BINDING`;
`reqIp`/`reqUa` are the current request's origin data.  Empty stored
`ip_address`/`user_agent` strings are falsy in JavaScript, hence skipped. -/
def authMiddleware (db : Db) (jwtVer : String → Option String) (strict : Bool)
    (reqIp reqUa : String) (now : Nat) (tok : String) : ApiResp Principal :=
  match findActiveSession db now tok with
  | some s =>
    match findUserById db s.user_id with
    | none => .err 401 "User not found"
    | some u =>
      if strict && s.ip_address != "" && s.ip_address != reqIp then
        .err 401 "Session IP mismatch"
      else if strict && s.user_agent != "" && s.user_agent != reqUa then
        .err 401 "Session User-Agent mismatch"
      else
        .ok (mkSessionPrincipal s u)
  | none =>
    match jwtVer tok with
    | some sub =>
      match findUserById db sub with
      | some u => .ok (mkJwtPrincipal u)
      | none => .err 401 "User not found"
    | none => .err 401 "Invalid or expired session"

/-- Core of `POST /api/auth/logout`: `updateOne('user_sessions',
{session_token}, {$set: {is_active: false, updated_at: now}})`. -/
def logoutByToken (db : Db) (tok : String) (now : Nat) : Db :=
  { db with
    user_sessions :=
      updateFirst (fun s => s.session_token == tok)
        (fun s => { s with is_active := false, updated_at := now })
        db.user_sessions }

/-- Handler of `POST /api/auth/logout`: it reads `req.user.session_token`;
for a signed-token principal the field is absent and the filter
`{session_token: undefined}` matches no document. -/
def logoutHandler (db : Db) (p : Principal) (now : Nat) : ApiResp Unit × Db :=
  match p.session_token with
  | some t => (.ok (), logoutByToken db t now)
  | none => (.ok (), db)

def c1User : UserDoc :=
  { _id := "uid1", email := "a@x.com", password_hash := "h"
    is_verified := false, is_active := true, is_staff := some false
    created_at := 0, updated_at := 0 }

def c1Session : SessionDoc :=
  { _id := "sid1", user_id := "uid1", session_token := "tokA"
    expires_at := 86400000, ip_address := "203.0.113.4", user_agent := "UA"
    is_active := true, created_at := 0, updated_at := 0 }

def c1Db : Db :=
  { users := [c1User], user_sessions := [c1Session], payment_transactions := [] }

def c1JwtVer : String → Option String :=
  fun s => if s = "jwtB" then some "uid1" else none

/-! ## Payment Transaction Engine: reads and staff verification

The in-memory `collection.find(filter)` computes the filter results in
insertion order; the chainable `sort()` and `limit()` of the in-memory
cursor are no-ops (`sort() { return this; }`, `limit() { return this; }`),
so `toArray()` returns the unsorted, uncapped filter results.  The Mongo
cursor is modelled separately (`sortDescBy`, `List.take`) from the driver's
documented behaviour. -/

/-- Handler of `GET /api/payments/history` on the in-memory backend:
`find({user_id}).sort({created_at:-1}).limit(50).toArray()` where `sort` and
`limit` do nothing. -/
def historyHandlerMem (db : Db) (p : Principal) : ApiResp (List TxDoc) :=
  .ok (db.payment_transactions.filter fun t => t.user_id == p.uid)

/-- Insert `x` into a list kept in descending `key` order. -/
def insertDescBy (key : α → Nat) (x : α) : List α → List α
  | [] => [x]
  | y :: ys => if key y < key x then x :: y :: ys else y :: insertDescBy key x ys

/-- Sort a list into descending `key` order (model of Mongo
`sort({created_at: -1})`). -/
def sortDescBy (key : α → Nat) (l : List α) : List α :=
  l.foldr (insertDescBy key) []

/-- Handler of `GET /api/payments/history` on the Mongo backend:
`find({user_id}).sort({created_at:-1}).limit(50)` with the driver's
documented sort/limit semantics. -/
def historyMongo (db : Db) (p : Principal) : List TxDoc :=
  (sortDescBy (fun t => t.created_at)
    (db.payment_transactions.filter fun t => t.user_id == p.uid)).take 50

/-- Handler of `GET /api/payments/:id`, in-memory branch:
`findOne({_id: transactionId, user_id: user._id})`, 404 when null. -/
def getPaymentMem (db : Db) (p : Principal) (tid : String) : ApiResp TxDoc :=
  match db.payment_transactions.find? (fun t => t._id == tid && t.user_id == p.uid) with
  | none => .err 404 "Transaction not found"
  | some t => .ok t

/-- Handler of `GET /api/payments/:id`, Mongo branch: a malformed id is rejected with
400 (`ObjectId.isValid`, abstracted as `oidValid`), then the same owner-
scoped `findOne`. -/
def getPaymentBase (oidValid : String → Bool) (db : Db) (p : Principal)
    (tid : String) : ApiResp TxDoc :=
  if !oidValid tid then .err 400 "Invalid transaction ID"
  else
    match db.payment_transactions.find? (fun t => t._id == tid && t.user_id == p.uid) with
    | none => .err 404 "Transaction not found"
    | some t => .ok t

/-- The `$set` of `POST /api/admin/transactions/:id/verify`. -/
def verifyUpdate (now : Nat) (t : TxDoc) : TxDoc :=
  { t with is_processed := true, status := "completed"
           processed_at := some now, updated_at := now }

/-- Handler of `POST /api/admin/transactions/:id/verify`: staff gate, then
`findOneAndUpdate({_id}, {$set: {is_processed: true, status: 'completed',
processed_at: now, updated_at: now}}, {returnDocument: 'after'})`; 404 when
no document matched. -/
def adminVerifyHandler (db : Db) (p : Principal) (tid : String) (now : Nat) :
    ApiResp TxDoc × Db :=
  if !p.is_staff then (.err 403 "Forbidden", db)
  else
    match db.payment_transactions.find? (fun t => t._id == tid) with
    | none => (.err 404 "Transaction not found", db)
    | some t =>
      (.ok (verifyUpdate now t),
       { db with payment_transactions :=
           (updateFirst (fun t => t._id == tid) (verifyUpdate now)
             db.payment_transactions) })

/-- A transaction row of the staff listing, enriched with the submitter's
identity. -/
structure EnrichedTx where
  tx : TxDoc
  user_email : String
  user_name : String
deriving DecidableEq

/-- Handler of `GET /api/admin/transactions` (in-memory branch): staff gate, optional
status filter, each row joined with the owning user's email/full name
(`submitter?.email || ''`). -/
def adminTransactionsMem (db : Db) (p : Principal) (statusFilter : Option String) :
    ApiResp (List EnrichedTx) :=
  if !p.is_staff then .err 403 "Forbidden"
  else
    let filt := fun (t : TxDoc) =>
      match statusFilter with
      | some st => t.status == st
      | none => true
    .ok ((db.payment_transactions.filter filt).map fun t =>
      { tx := t
        user_email := ((findUserById db t.user_id).map (·.email)).getD ""
        user_name := ((findUserById db t.user_id).bind (·.full_name)).getD "" })

/-- The user document inserted by `POST /api/auth/register` in the extended
server variant (`is_staff: false` is written out; `username`, `id_number`
and `account_number` are only added when present, and registration passes
them as null). -/
def registerUserExtended (id email passwordHash : String) (now : Nat) : UserDoc :=
  { _id := id, email := email, password_hash := passwordHash
    is_verified := false, is_active := true, is_staff := some false
    created_at := now, updated_at := now }

/-- The user document inserted by `POST /api/auth/register` in the base
server variant: no `is_staff` field at all. -/
def registerUserBase (id email passwordHash : String) (now : Nat) : UserDoc :=
  { _id := id, email := email, password_hash := passwordHash
    is_verified := false, is_active := true, is_staff := none
    created_at := now, updated_at := now }

def c5Tx : TxDoc :=
  { _id := "tid1", user_id := "other", user_account := none
    swift_code := some "NWBKGB2L", recipient_name := "JOHN SMITH"
    recipient_account := "GB82WEST123", recipient_bank := "HSBC Bank"
    recipient_country := "United Kingdom", amount := 1500, currency := "USD"
    reference_number := "INT123456ABCDEF", status := "pending"
    transaction_fee := 30, is_processed := false
    created_at := 0, updated_at := 0 }

def c5Db1 : Db :=
  { users := [], user_sessions := [], payment_transactions := [c5Tx] }

def c5Db2 : Db :=
  { users := [], user_sessions := [], payment_transactions := [] }

def c5P1 : Principal :=
  { uid := "u1", is_staff := false, session_token := none, account_number := none }

def c5POther : Principal :=
  { uid := "other", is_staff := false, session_token := none, account_number := none }

def c6Db : Db :=
  { users := [], user_sessions := [], payment_transactions := [c5Tx] }

def c6Staff : Principal :=
  { uid := "staff1", is_staff := true, session_token := some "tokS"
    account_number := none }

/-- A transaction owned by `u1` whose `created_at` is `i`, inserted as the
`i`-th document. -/
def c7Tx (i : Nat) : TxDoc :=
  { _id := toString i, user_id := "u1", user_account := none
    swift_code := none, recipient_name := "JOHN SMITH"
    recipient_account := "GB82WEST123", recipient_bank := "HSBC Bank"
    recipient_country := "United Kingdom", amount := 100, currency := "USD"
    reference_number := toString i, status := "pending"
    transaction_fee := 2, is_processed := false
    created_at := i, updated_at := i }

def c7Db2 : Db :=
  { users := [], user_sessions := [], payment_transactions := [c7Tx 0, c7Tx 1] }

def c7Db51 : Db :=
  { users := [], user_sessions := []
    payment_transactions := (List.range 51).map c7Tx }

def c7P : Principal :=
  { uid := "u1", is_staff := false, session_token := none, account_number := none }

/-! ## Credential Store Adapter: `insertOne` on the two backends

The in-memory `insertOne` pushes the document unconditionally — its
`createIndex` is a no-op, so no uniqueness is checked.  The Mongo backend is
modelled from the unique indexes `connectToDatabase` creates
(`users.email`, sparse `users.username`, `user_sessions.session_token`,
`payment_transactions.reference_number`) together with the driver's
documented duplicate-key behaviour (an E11000 insert error). -/

def memInsertUser (l : List UserDoc) (u : UserDoc) : List UserDoc := l ++ [u]

def memInsertSession (l : List SessionDoc) (s : SessionDoc) : List SessionDoc := l ++ [s]

def memInsertTx (l : List TxDoc) (t : TxDoc) : List TxDoc := l ++ [t]

def mongoInsertUser (l : List UserDoc) (u : UserDoc) : Except String (List UserDoc) :=
  if l.any (fun v => v.email == u.email) then
    .error "E11000 duplicate key: users.email"
  else if (match u.username with
    | some un => l.any (fun v => v.username == some un)
    | none => false) then
    .error "E11000 duplicate key: users.username"
  else
    .ok (l ++ [u])

def mongoInsertSession (l : List SessionDoc) (s : SessionDoc) :
    Except String (List SessionDoc) :=
  if l.any (fun v => v.session_token == s.session_token) then
    .error "E11000 duplicate key: user_sessions.session_token"
  else
    .ok (l ++ [s])

def mongoInsertTx (l : List TxDoc) (t : TxDoc) : Except String (List TxDoc) :=
  if l.any (fun v => v.reference_number == t.reference_number) then
    .error "E11000 duplicate key: payment_transactions.reference_number"
  else
    .ok (l ++ [t])

def c3U1 : UserDoc :=
  { _id := "u1", email := "dup@x.com", password_hash := "h1"
    is_verified := false, is_active := true, created_at := 0, updated_at := 0 }

def c3U2 : UserDoc :=
  { _id := "u2", email := "dup@x.com", password_hash := "h2"
    is_verified := false, is_active := true, created_at := 1, updated_at := 1 }

/-! ## Reference numbers (`generateReferenceNumber`)

`INT` + `Date.now().toString().slice(-6)` +
`Math.random().toString(36).substring(2, 8).toUpperCase()`.  `Math.random()`
returns a dyadic rational `k / 2^53` in `[0, 1)`; `toString(36)` renders
`"0."` followed by the base-36 fractional digits (lowercase), stopping when
the remainder hits zero (terminating expansions such as `0.5 → "0.i"`) or
when the implementation's precision is exhausted — the digit budget here is
20, ample for the six digits `substring(2, 8)` keeps. -/

def base36Char (n : Nat) : Char :=
  if n < 10 then Char.ofNat (48 + n) else Char.ofNat (97 + (n - 10))

/-- Base-36 fractional digits of `k / 2^53`, most significant first. -/
def frac36 : Nat → Nat → List Char
  | 0, _ => []
  | _, 0 => []
  | fuel + 1, k =>
    base36Char ((k * 36) / 2 ^ 53) :: frac36 fuel ((k * 36) % 2 ^ 53)

/-- Model of `Number(k / 2^53).toString(36)` for `0 ≤ k < 2^53`. -/
def jsNumToString36 (k : Nat) : String :=
  if k = 0 then "0" else "0." ++ String.mk (frac36 20 k)

/-- Model of `.substring(2, 8).toUpperCase()`. -/
def jsSubstring2to8Upper (s : String) : String :=
  String.mk (((s.toList.drop 2).take 6).map Char.toUpper)

/-- Model of `.slice(-6)`: the last six characters (the whole string when shorter). -/
def jsSliceLast6 (s : String) : String :=
  String.mk (s.toList.drop (s.toList.length - 6))

/-- The server function `generateReferenceNumber`, with `Date.now()` and the `Math.random()`
draw (its numerator `k`, the drawn value being `k / 2^53`) made explicit. -/
def generateReferenceNumber (tsMs k : Nat) : String :=
  "INT" ++ jsSliceLast6 (toString tsMs) ++ jsSubstring2to8Upper (jsNumToString36 k)

def isDigitChar (c : Char) : Bool := 48 ≤ c.toNat && c.toNat ≤ 57

def isUpperChar (c : Char) : Bool := 65 ≤ c.toNat && c.toNat ≤ 90

def isUpperAlnum (c : Char) : Bool := isDigitChar c || isUpperChar c

/-- The spec's reference-number pattern `INT\d{6}[A-Z0-9]{6}`. -/
def refPatternOk (s : String) : Bool :=
  let cs := s.toList
  cs.length == 15 && cs.take 3 == ['I', 'N', 'T'] &&
    ((cs.drop 3).take 6).all isDigitChar && ((cs.drop 9).all isUpperAlnum)

/-! ## Payment creation (`POST /api/payments/create`)

The handler runs after `authMiddleware` and the zod `CreatePaymentSchema`;
it rate-limits by `payments:<ip>`, re-validates the recipient fields against
whitelist character classes, computes the 2% fee and inserts the
transaction.  JavaScript's regex `\s` class is modelled by the common
whitespace characters; amounts are exact rationals. -/

def isSpaceChar (c : Char) : Bool :=
  c == ' ' || c == '\t' || c == '\n' || c == '\r'

def isAlphaChar (c : Char) : Bool :=
  isUpperChar c || (97 ≤ c.toNat && c.toNat ≤ 122)

/-- Whitelist `/^[a-zA-Z\s\-\.]{2,}$/` (recipient name and bank). -/
def nameWhitelistOk (s : String) : Bool :=
  2 ≤ s.toList.length &&
    s.toList.all fun c => isAlphaChar c || isSpaceChar c || c == '-' || c == '.'

/-- Whitelist `/^[A-Z0-9\-]{8,}$/i` (recipient account, case-insensitive). -/
def accountWhitelistOk (s : String) : Bool :=
  8 ≤ s.toList.length &&
    s.toList.all fun c => isAlphaChar c || isDigitChar c || c == '-'

/-- Whitelist `/^[a-zA-Z\s]{2,}$/` (recipient country). -/
def countryWhitelistOk (s : String) : Bool :=
  2 ≤ s.toList.length && s.toList.all fun c => isAlphaChar c || isSpaceChar c

/-- The request body accepted by `CreatePaymentSchema`. -/
structure CreatePaymentReq where
  recipient_name : String
  recipient_account : String
  recipient_bank : String
  recipient_country : String
  swift_code : String
  amount : ℚ
  currency : String
  purpose : Option String := none
deriving DecidableEq

/-- The zod `CreatePaymentSchema`: field lengths, character classes, the
8-or-11-character SWIFT pattern `[A-Z]{6}[A-Z0-9]{2}([A-Z0-9]{3})?`, the
amount range 1–50000 and a 3-uppercase-letter currency. -/
def CreatePaymentSchemaOk (r : CreatePaymentReq) : Bool :=
  (2 ≤ r.recipient_name.toList.length && r.recipient_name.toList.length ≤ 100 &&
    r.recipient_name.toList.all (fun c =>
      isAlphaChar c || isSpaceChar c || c == '-' || c == '.')) &&
  (8 ≤ r.recipient_account.toList.length && r.recipient_account.toList.length ≤ 64 &&
    r.recipient_account.toList.all (fun c =>
      isUpperChar c || isDigitChar c || c == '-')) &&
  (2 ≤ r.recipient_bank.toList.length && r.recipient_bank.toList.length ≤ 100 &&
    r.recipient_bank.toList.all (fun c =>
      isAlphaChar c || isSpaceChar c || c == '-' || c == '.')) &&
  (2 ≤ r.recipient_country.toList.length && r.recipient_country.toList.length ≤ 56 &&
    r.recipient_country.toList.all (fun c => isAlphaChar c || isSpaceChar c)) &&
  ((r.swift_code.toList.length == 8 || r.swift_code.toList.length == 11) &&
    (r.swift_code.toList.take 6).all isUpperChar &&
    (r.swift_code.toList.drop 6).all isUpperAlnum) &&
  (1 ≤ r.amount && r.amount ≤ 50000) &&
  (r.currency.toList.length == 3 && r.currency.toList.all isUpperChar) &&
  (match r.purpose with
    | some s => s.toList.length ≤ 200 &&
        s.toList.all (fun c =>
          isAlphaChar c || isDigitChar c || isSpaceChar c || c == '-' ||
            c == '.' || c == ',')
    | none => true)

/-- The `data` object of a successful payment-creation response. -/
structure PayRespData where
  transactionId : String
  referenceNumber : String
  transactionFee : ℚ
  status : String
deriving DecidableEq

/-- JavaScript `x || null` on an optional string field: absent or empty
strings become null. -/
def jsOptStrOrNull : Option String → Option String
  | some s => if s == "" then none else some s
  | none => none

/-- The payment-creation handler (extended variant, in-memory insert): rate
limit, whitelist re-validation, 2% fee (`paymentData.amount * 0.02`),
insert with `status: 'pending'`.  The synthetic `_id` and the generated
reference number are passed in (`crypto`/`Math.random` are external). -/
def createPaymentHandler (rl : RateMap) (db : Db) (p : Principal)
    (r : CreatePaymentReq) (clientIP : String) (now : Nat) (txId refNum : String) :
    ApiResp PayRespData × Db × RateMap :=
  let rlStep := checkRateLimit rl ("payments:" ++ clientIP) 10 3600000 now
  if !rlStep.1 then
    (.err 429 "Payment limit exceeded. Please try again later.", db, rlStep.2)
  else if !nameWhitelistOk r.recipient_name then
    (.err 400 "Invalid recipient name", db, rlStep.2)
  else if !accountWhitelistOk r.recipient_account then
    (.err 400 "Invalid recipient account format", db, rlStep.2)
  else if !nameWhitelistOk r.recipient_bank then
    (.err 400 "Invalid recipient bank name", db, rlStep.2)
  else if !countryWhitelistOk r.recipient_country then
    (.err 400 "Invalid recipient country", db, rlStep.2)
  else
    let transactionFee : ℚ := r.amount * (2 / 100)
    let tx : TxDoc :=
      { _id := txId, user_id := p.uid, user_account := p.account_number
        swift_code := if r.swift_code == "" then none else some r.swift_code
        recipient_name := r.recipient_name
        recipient_account := r.recipient_account
        recipient_bank := r.recipient_bank
        recipient_country := r.recipient_country
        amount := r.amount, currency := r.currency
        purpose := jsOptStrOrNull r.purpose
        reference_number := refNum, status := "pending"
        transaction_fee := transactionFee, is_processed := false
        created_at := now, updated_at := now }
    (.ok ⟨txId, refNum, transactionFee, "pending"⟩,
     { db with payment_transactions := db.payment_transactions ++ [tx] },
     rlStep.2)

/-! ## Persisted documents as key/value association lists

For the claim about which fields the two variants persist, the inserted
documents are modelled as association lists mirroring the object literals
passed to `insertOne`, key for key and in source order. -/

inductive JsValue where
  | str (s : String)
  | num (q : ℚ)
  | boolv (b : Bool)
  | date (ms : Nat)
  | nullv
deriving DecidableEq

abbrev JsDoc := List (String × JsValue)

def JsDoc.lookup? (d : JsDoc) (k : String) : Option JsValue :=
  (d.find? (fun e => e.1 == k)).map (·.2)

def jsStrOrNullV (s : String) : JsValue :=
  if s == "" then .nullv else .str s

def jsOptStrOrNullV : Option String → JsValue
  | some s => jsStrOrNullV s
  | none => .nullv

/-- The document the base server variant passes to
`insertOne('payment_transactions', ...)` — note: no `swift_code` key. -/
def basePaymentDoc (p : Principal) (r : CreatePaymentReq) (refNum : String)
    (now : Nat) : JsDoc :=
  [("user_id", .str p.uid),
   ("user_account", jsOptStrOrNullV p.account_number),
   ("recipient_name", .str r.recipient_name),
   ("recipient_account", .str r.recipient_account),
   ("recipient_bank", .str r.recipient_bank),
   ("recipient_country", .str r.recipient_country),
   ("amount", .num r.amount),
   ("currency", .str r.currency),
   ("exchange_rate", .nullv),
   ("converted_amount", .nullv),
   ("purpose", jsOptStrOrNullV r.purpose),
   ("reference_number", .str refNum),
   ("status", .str "pending"),
   ("transaction_fee", .num (r.amount * (2 / 100))),
   ("is_processed", .boolv false),
   ("processed_at", .nullv),
   ("created_at", .date now),
   ("updated_at", .date now)]

/-- The document the extended server variant passes to `insertOne`:
identical except for `swift_code: paymentData.swift_code || null` right
after `user_account`. -/
def extendedPaymentDoc (p : Principal) (r : CreatePaymentReq) (refNum : String)
    (now : Nat) : JsDoc :=
  [("user_id", .str p.uid),
   ("user_account", jsOptStrOrNullV p.account_number),
   ("swift_code", jsStrOrNullV r.swift_code),
   ("recipient_name", .str r.recipient_name),
   ("recipient_account", .str r.recipient_account),
   ("recipient_bank", .str r.recipient_bank),
   ("recipient_country", .str r.recipient_country),
   ("amount", .num r.amount),
   ("currency", .str r.currency),
   ("exchange_rate", .nullv),
   ("converted_amount", .nullv),
   ("purpose", jsOptStrOrNullV r.purpose),
   ("reference_number", .str refNum),
   ("status", .str "pending"),
   ("transaction_fee", .num (r.amount * (2 / 100))),
   ("is_processed", .boolv false),
   ("processed_at", .nullv),
   ("created_at", .date now),
   ("updated_at", .date now)]

def c8Req : CreatePaymentReq :=
  { recipient_name := "JOHN SMITH", recipient_account := "GB82WEST123"
    recipient_bank := "HSBC Bank", recipient_country := "United Kingdom"
    swift_code := "NWBKGB2L", amount := 1500, currency := "USD" }

def c8P : Principal :=
  { uid := "u1", is_staff := false, session_token := some "tokA"
    account_number := none }

def c10Req : CreatePaymentReq := c8Req

theorem RateMap.get_set (m : RateMap) (k : String) (v : RateEntry) :
    (RateMap.set m k v).get k = some v := by
  induction m with
  | nil => simp [RateMap.set, RateMap.get, List.find?]
  | cons hd tl ih =>
    by_cases h : hd.1 = k
    · simp [RateMap.set, RateMap.get, List.find?, h]
    · simp only [RateMap.set]
      rw [show (hd.1 == k) = false from beq_eq_false_iff_ne.mpr h]
      simpa [RateMap.get, List.find?, beq_eq_false_iff_ne.mpr h] using ih

/-- Invariant run: starting from a map whose entry for `key` is
`⟨c, R⟩` with `1 ≤ c ≤ maxR`, and calling at times that never exceed `R`,
the i-th call returns `c + i < maxR` and the final entry is
`⟨min (c + n) maxR, R⟩`. -/
theorem runRateCalls_inWindow (key : String) (maxR W : Nat) :
    ∀ (ts : List Nat) (m : RateMap) (c R : Nat),
      m.get key = some ⟨c, R⟩ → 1 ≤ c → c ≤ maxR →
      (∀ t ∈ ts, t ≤ R) →
      (runRateCalls m key maxR W ts).1 =
        (List.range ts.length).map (fun i => decide (c + i < maxR)) ∧
      (runRateCalls m key maxR W ts).2.get key = some ⟨min (c + ts.length) maxR, R⟩ := by
  intro ts
  induction ts with
  | nil =>
    intro m c R hget _ hle _
    refine ⟨by simp [runRateCalls], ?_⟩
    simp only [runRateCalls, List.length_nil]
    rw [hget]
    congr 2
    omega
  | cons t ts ih =>
    intro m c R hget hc hle htimes
    have ht : t ≤ R := htimes t (List.mem_cons_self t ts)
    have hts : ∀ u ∈ ts, u ≤ R := fun u hu => htimes u (List.mem_cons_of_mem t hu)
    by_cases hfull : c ≥ maxR
    · -- counter already at the cap: denied, state unchanged
      have hstep : checkRateLimit m key maxR W t = (false, m) := by
        simp [checkRateLimit, hget, Nat.not_lt.mpr ht, hfull]
      have := ih m c R hget hc hle hts
      constructor
      · simp only [runRateCalls, hstep, this.1, List.length_cons,
          List.range_succ_eq_map, List.map_cons, List.map_map, List.cons.injEq]
        constructor
        · symm
          rw [decide_eq_false_iff_not]
          omega
        · apply List.map_congr_left
          intro i _
          show decide (c + i < maxR) = decide (c + Nat.succ i < maxR)
          rw [decide_eq_decide]
          omega
      · simp only [runRateCalls, hstep]
        rw [this.2]
        simp only [List.length_cons]
        congr 2
        omega
    · -- counter below the cap: allowed, counter incremented
      push_neg at hfull
      have hstep : checkRateLimit m key maxR W t =
          (true, m.set key ⟨c + 1, R⟩) := by
        simp [checkRateLimit, hget, Nat.not_lt.mpr ht, Nat.not_le.mpr hfull]
      have hget2 : (m.set key ⟨c + 1, R⟩).get key = some ⟨c + 1, R⟩ :=
        RateMap.get_set m key _
      have := ih (m.set key ⟨c + 1, R⟩) (c + 1) R hget2 (by omega) (by omega) hts
      constructor
      · simp only [runRateCalls, hstep, this.1, List.length_cons,
          List.range_succ_eq_map, List.map_cons, List.map_map, List.cons.injEq]

        constructor
        · symm
          rw [decide_eq_true_eq]
          omega
        · apply List.map_congr_left
          intro i _
          show decide (c + 1 + i < maxR) = decide (c + Nat.succ i < maxR)
          rw [decide_eq_decide]
          omega
      · simp only [runRateCalls, hstep]
        rw [this.2]
        simp only [List.length_cons]
        congr 2
        omega

/-- C2: `checkRateLimit(key, maxRequests, windowMs)` resets the counter to
`count = 1`, `resetTime = now + windowMs` and allows on the first call for a
key or on any call once `now > resetTime`; otherwise it allows exactly while
the incremented count stays at most `maxRequests`.  Consequently, within one
window the first `maxRequests` calls for a key return `true` and every later
call returns `false`, and once the window has elapsed a call is allowed
again (no permanent lockout). -/
theorem checkRateLimit_fixed_window (m0 : RateMap) (key : String)
    (maxR W t0 : Nat) (ts : List Nat)
    (hfresh : m0.get key = none)
    (hmax : 1 ≤ maxR)
    (hwin : ∀ t ∈ ts, t ≤ t0 + W) :
    checkRateLimit m0 key maxR W t0 = (true, m0.set key ⟨1, t0 + W⟩) ∧
    (∀ (m : RateMap) (c R now : Nat), m.get key = some ⟨c, R⟩ → R < now →
      checkRateLimit m key maxR W now = (true, m.set key ⟨1, now + W⟩)) ∧
    (∀ (m : RateMap) (c R now : Nat), m.get key = some ⟨c, R⟩ → now ≤ R →
      (checkRateLimit m key maxR W now).1 = decide (c + 1 ≤ maxR)) ∧
    (runRateCalls m0 key maxR W (t0 :: ts)).1 =
      (List.range (ts.length + 1)).map (fun i => decide (i + 1 ≤ maxR)) ∧
    (∀ tLater, t0 + W < tLater →
      (checkRateLimit (runRateCalls m0 key maxR W (t0 :: ts)).2 key maxR W tLater).1
        = true) := by
  have hstep0 : checkRateLimit m0 key maxR W t0 =
      (true, m0.set key ⟨1, t0 + W⟩) := by
    simp [checkRateLimit, hfresh]
  have hget1 : (m0.set key ⟨1, t0 + W⟩).get key = some ⟨1, t0 + W⟩ :=
    RateMap.get_set m0 key _
  have hrun := runRateCalls_inWindow key maxR W ts (m0.set key ⟨1, t0 + W⟩)
    1 (t0 + W) hget1 le_rfl hmax hwin
  refine ⟨hstep0, ?_, ?_, ?_, ?_⟩
  · intro m c R now hget hR
    simp [checkRateLimit, hget, hR]
  · intro m c R now hget hR
    by_cases hfull : c ≥ maxR
    · have : ¬ (c + 1 ≤ maxR) := by omega
      simp [checkRateLimit, hget, Nat.not_lt.mpr hR, hfull, this]
    · have hlt : ¬ (maxR ≤ c) := by omega
      have : c + 1 ≤ maxR := by omega
      simp [checkRateLimit, hget, Nat.not_lt.mpr hR, hlt, this]
  · simp only [runRateCalls, hstep0, hrun.1, List.range_succ_eq_map,
      List.map_cons, List.map_map, List.cons.injEq]
    constructor
    · symm
      rw [decide_eq_true_eq]
      omega
    · apply List.map_congr_left
      intro i _
      show decide (1 + i < maxR) = decide (Nat.succ i + 1 ≤ maxR)
      rw [decide_eq_decide]
      omega
  · intro tLater hlate
    have hfin : (runRateCalls m0 key maxR W (t0 :: ts)).2.get key =
        some ⟨min (1 + ts.length) maxR, t0 + W⟩ := by
      simp only [runRateCalls, hstep0]
      exact hrun.2
    simp [checkRateLimit, hfin, hlate]

/-- Witness for C2: from an empty map, six in-window login attempts against
the limit 5/15-min give five allows then a deny, and a call after the window
elapses is allowed again. -/
theorem checkRateLimit_fixed_window_witness :
    (runRateCalls [] "login:203.0.113.4" 5 900000 [0, 1, 2, 3, 4, 5]).1 =
      [true, true, true, true, true, false] ∧
    (checkRateLimit (runRateCalls [] "login:203.0.113.4" 5 900000
        [0, 1, 2, 3, 4, 5]).2 "login:203.0.113.4" 5 900000 900001).1 = true := by
  have h := checkRateLimit_fixed_window [] "login:203.0.113.4" 5 900000 0
    [1, 2, 3, 4, 5] rfl (by decide) (by decide)
  refine ⟨?_, h.2.2.2.2 900001 (by decide)⟩
  rw [show ([0, 1, 2, 3, 4, 5] : List Nat) = 0 :: [1, 2, 3, 4, 5] from rfl,
    h.2.2.2.1]
  decide

/-- After `logoutByToken`, provided the store held at most one session with
the token (the `session_token` unique index), every remaining session with
that token is inactive. -/
theorem updateFirst_deactivates (t : String) (now : Nat) :
    ∀ (l : List SessionDoc),
      (l.filter (fun s => s.session_token == t)).length ≤ 1 →
      ∀ s ∈ updateFirst (fun s => s.session_token == t)
          (fun s => { s with is_active := false, updated_at := now }) l,
        s.session_token = t → s.is_active = false := by
  intro l
  induction l with
  | nil => intro _ s hs
           simp [updateFirst] at hs
  | cons x xs ih =>
    intro huniq s hs hst
    by_cases hx : x.session_token == t
    · simp only [updateFirst, if_pos hx, List.mem_cons] at hs
      rcases hs with rfl | hs
      · rfl
      · exfalso
        have hfx : (List.filter (fun s => s.session_token == t) (x :: xs)) =
            x :: List.filter (fun s => s.session_token == t) xs := by
          simp [List.filter_cons, hx]
        rw [hfx] at huniq
        have hmem : s ∈ List.filter (fun s => s.session_token == t) xs :=
          List.mem_filter.mpr ⟨hs, by simp [hst]⟩
        have hnil : List.filter (fun s => s.session_token == t) xs = [] := by
          apply List.length_eq_zero.mp
          simp only [List.length_cons] at huniq
          omega
        rw [hnil] at hmem
        exact absurd hmem (List.not_mem_nil s)
    · simp only [updateFirst, if_neg hx, List.mem_cons] at hs
      rcases hs with rfl | hs
      · exact absurd hst (by simpa using hx)
      · have hfx : (List.filter (fun s => s.session_token == t) (x :: xs)) =
            List.filter (fun s => s.session_token == t) xs := by
          simp [List.filter_cons, hx]
        exact ih (by rw [hfx] at huniq; exact huniq) s hs hst

/-- Applying `updateFirst` with a token-preserving update does not change the set of
session tokens present in the store. -/
theorem updateFirst_token_preserved (t : String) (now : Nat) (jt : String) :
    ∀ (l : List SessionDoc),
      (∀ s ∈ l, s.session_token ≠ jt) →
      ∀ s ∈ updateFirst (fun s => s.session_token == t)
          (fun s => { s with is_active := false, updated_at := now }) l,
        s.session_token ≠ jt := by
  intro l
  induction l with
  | nil => intro _ s hs
           simp [updateFirst] at hs
  | cons x xs ih =>
    intro hnone s hs
    by_cases hx : x.session_token == t
    · simp only [updateFirst, if_pos hx, List.mem_cons] at hs
      rcases hs with rfl | hs
      · exact hnone x (List.mem_cons_self x xs)
      · exact hnone s (List.mem_cons_of_mem x hs)
    · simp only [updateFirst, if_neg hx, List.mem_cons] at hs
      rcases hs with rfl | hs
      · exact hnone s (List.mem_cons_self s xs)
      · exact ih (fun u hu => hnone u (List.mem_cons_of_mem x hu)) s hs

/-- C1: after a logout performed with a valid session token `t`, validating
`t` again fails with 401 (`findOne` no longer matches, and a random opaque
token is not a verifiable JWT), while a signed JWT issued to the same user
before the logout keeps validating — logout touches only `user_sessions`,
which the signed-token path never reads.  `jwtVer` abstracts `jwt.verify`
with the process secret at the time of the validation call, so
`jwtVer jt = some uid` states that the token is signature-valid and not yet
expired; the hypothesis `huniq` is the `session_token` unique index. -/
theorem logout_revokes_session_not_jwt
    (db : Db) (jwtVer : String → Option String) (strict : Bool)
    (reqIp reqUa : String) (t jt uid : String) (nowL now : Nat)
    (s0 : SessionDoc) (u : UserDoc)
    (_hvalid : findActiveSession db nowL t = some s0)
    (huniq : (db.user_sessions.filter (fun s => s.session_token == t)).length ≤ 1)
    (hjwtNone : jwtVer t = none)
    (hjt : jwtVer jt = some uid)
    (hjtNoSess : ∀ s ∈ db.user_sessions, s.session_token ≠ jt)
    (huser : findUserById db uid = some u) :
    authMiddleware (logoutByToken db t nowL) jwtVer strict reqIp reqUa now t
      = .err 401 "Invalid or expired session" ∧
    authMiddleware (logoutByToken db t nowL) jwtVer strict reqIp reqUa now jt
      = .ok (mkJwtPrincipal u) ∧
    authMiddleware db jwtVer strict reqIp reqUa now jt = .ok (mkJwtPrincipal u) := by
  have husers : (logoutByToken db t nowL).users = db.users := rfl
  have hsessNone : findActiveSession (logoutByToken db t nowL) now t = none := by
    apply List.find?_eq_none.mpr
    intro s hs
    have hdeact := updateFirst_deactivates t nowL db.user_sessions huniq s hs
    by_cases hst : s.session_token = t
    · simp [hdeact hst]
    · simp [hst]
  have hsessJt : findActiveSession (logoutByToken db t nowL) now jt = none := by
    apply List.find?_eq_none.mpr
    intro s hs
    have := updateFirst_token_preserved t nowL jt db.user_sessions hjtNoSess s hs
    simp [this]
  have hsessJt0 : findActiveSession db now jt = none := by
    apply List.find?_eq_none.mpr
    intro s hs
    simp [hjtNoSess s hs]
  have huser2 : findUserById (logoutByToken db t nowL) uid = some u := huser
  refine ⟨?_, ?_, ?_⟩
  · simp [authMiddleware, hsessNone, hjwtNone]
  · simp [authMiddleware, hsessJt, hjt, huser2]
  · simp [authMiddleware, hsessJt0, hjt, huser]

/-- Witness for C1 at a concrete store: one user, one active session, one
verifiable JWT. -/
theorem logout_revokes_session_not_jwt_witness :
    authMiddleware (logoutByToken c1Db "tokA" 5) c1JwtVer false "" "" 10 "tokA"
      = .err 401 "Invalid or expired session" ∧
    authMiddleware (logoutByToken c1Db "tokA" 5) c1JwtVer false "" "" 10 "jwtB"
      = .ok (mkJwtPrincipal c1User) ∧
    authMiddleware c1Db c1JwtVer false "" "" 10 "jwtB"
      = .ok (mkJwtPrincipal c1User) :=
  logout_revokes_session_not_jwt c1Db c1JwtVer false "" "" "tokA" "jwtB" "uid1"
    5 10 c1Session c1User (by decide) (by decide) (by decide) (by decide)
    (by decide) (by decide)

theorem mem_insertDescBy (key : α → Nat) (x a : α) :
    ∀ l, a ∈ insertDescBy key x l ↔ a = x ∨ a ∈ l := by
  intro l
  induction l with
  | nil => simp [insertDescBy]
  | cons y ys ih =>
    by_cases h : key y < key x
    · simp [insertDescBy, h, List.mem_cons]
    · simp only [insertDescBy, if_neg h, List.mem_cons, ih]
      tauto

theorem insertDescBy_perm (key : α → Nat) (x : α) :
    ∀ l, (insertDescBy key x l).Perm (x :: l) := by
  intro l
  induction l with
  | nil => simp [insertDescBy]
  | cons y ys ih =>
    by_cases h : key y < key x
    · simp [insertDescBy, h]
    · simp only [insertDescBy, if_neg h]
      exact (ih.cons y).trans (List.Perm.swap x y ys)

theorem sortDescBy_perm (key : α → Nat) :
    ∀ l : List α, (sortDescBy key l).Perm l := by
  intro l
  induction l with
  | nil => simp [sortDescBy]
  | cons y ys ih =>
    have : sortDescBy key (y :: ys) = insertDescBy key y (sortDescBy key ys) := rfl
    rw [this]
    exact (insertDescBy_perm key y (sortDescBy key ys)).trans (ih.cons y)

theorem insertDescBy_sorted (key : α → Nat) (x : α) :
    ∀ l, l.Sorted (fun a b => key b ≤ key a) →
      (insertDescBy key x l).Sorted (fun a b => key b ≤ key a) := by
  intro l
  induction l with
  | nil => intro _; simp [insertDescBy]
  | cons y ys ih =>
    intro hs
    rw [List.sorted_cons] at hs
    by_cases h : key y < key x
    · simp only [insertDescBy, if_pos h]
      rw [List.sorted_cons]
      refine ⟨?_, ?_⟩
      · intro b hb
        rcases List.mem_cons.mp hb with rfl | hb
        · omega
        · have := hs.1 b hb
          omega
      · rw [List.sorted_cons]
        exact hs
    · simp only [insertDescBy, if_neg h]
      rw [List.sorted_cons]
      refine ⟨?_, ih hs.2⟩
      intro b hb
      rcases (mem_insertDescBy key x b ys).mp hb with rfl | hb
      · omega
      · exact hs.1 b hb

theorem sortDescBy_sorted (key : α → Nat) :
    ∀ l : List α, (sortDescBy key l).Sorted (fun a b => key b ≤ key a) := by
  intro l
  induction l with
  | nil => simp [sortDescBy]
  | cons y ys ih => exact insertDescBy_sorted key y (sortDescBy key ys) ih

/-- Running `findOneAndUpdate` then `findOne` with the same filter: the first match
of the updated list is the updated first match of the original, provided the
update preserves the filter. -/
theorem find?_updateFirst (p : α → Bool) (f : α → α)
    (hpf : ∀ a, p a = true → p (f a) = true) :
    ∀ (l : List α) (a : α), l.find? p = some a →
      (updateFirst p f l).find? p = some (f a) := by
  intro l
  induction l with
  | nil => intro a ha
           simp at ha
  | cons x xs ih =>
    intro a ha
    by_cases hx : p x = true
    · rw [List.find?_cons_of_pos _ hx] at ha
      cases ha
      rw [updateFirst, if_pos hx]
      exact List.find?_cons_of_pos _ (hpf x hx)
    · rw [List.find?_cons_of_neg _ hx] at ha
      rw [updateFirst, if_neg hx]
      rw [List.find?_cons_of_neg _ hx]
      exact ih a ha

/-- C5: for a non-staff principal, `GET /api/payments/:id` with a well-formed
id of a transaction owned by another user responds exactly like the same
request with an id matching no transaction: the literal 404 body, so the two
states are indistinguishable to the caller.  Proved for the in-memory branch
and, under `ObjectId.isValid` (abstracted `oidValid`), the Mongo branch. -/
theorem getById_enumeration_safe
    (oidValid : String → Bool) (db1 db2 : Db) (p1 p2 : Principal) (tid : String)
    (_hns : p1.is_staff = false)
    (hother : ∀ t ∈ db1.payment_transactions, t._id = tid → t.user_id ≠ p1.uid)
    (habsent : ∀ t ∈ db2.payment_transactions, t._id ≠ tid)
    (hoid : oidValid tid = true) :
    getPaymentMem db1 p1 tid = .err 404 "Transaction not found" ∧
    getPaymentMem db2 p2 tid = .err 404 "Transaction not found" ∧
    getPaymentMem db1 p1 tid = getPaymentMem db2 p2 tid ∧
    getPaymentBase oidValid db1 p1 tid = .err 404 "Transaction not found" ∧
    getPaymentBase oidValid db2 p2 tid = .err 404 "Transaction not found" ∧
    getPaymentBase oidValid db1 p1 tid = getPaymentBase oidValid db2 p2 tid := by
  have hf1 : db1.payment_transactions.find?
      (fun t => t._id == tid && t.user_id == p1.uid) = none := by
    apply List.find?_eq_none.mpr
    intro t ht
    by_cases h : t._id = tid
    · simp [h, hother t ht h]
    · simp [h]
  have hf2 : db2.payment_transactions.find?
      (fun t => t._id == tid && t.user_id == p2.uid) = none := by
    apply List.find?_eq_none.mpr
    intro t ht
    simp [habsent t ht]
  have h1 : getPaymentMem db1 p1 tid = .err 404 "Transaction not found" := by
    simp [getPaymentMem, hf1]
  have h2 : getPaymentMem db2 p2 tid = .err 404 "Transaction not found" := by
    simp [getPaymentMem, hf2]
  have h3 : getPaymentBase oidValid db1 p1 tid = .err 404 "Transaction not found" := by
    simp [getPaymentBase, hoid, hf1]
  have h4 : getPaymentBase oidValid db2 p2 tid = .err 404 "Transaction not found" := by
    simp [getPaymentBase, hoid, hf2]
  exact ⟨h1, h2, h1.trans h2.symm, h3, h4, h3.trans h4.symm⟩

/-- C6: staff verification is idempotent at the interface: with an existing
transaction id, both the first and the second `verify` call return 200 with
a document whose `status` is `completed` and `is_processed` is `true`, and
after each call the stored transaction is in that same terminal state. -/
theorem verify_twice_idempotent (db : Db) (p : Principal) (tid : String)
    (n1 n2 : Nat)
    (hstaff : p.is_staff = true)
    (hex : ∃ t ∈ db.payment_transactions, t._id = tid) :
    ∃ t0, db.payment_transactions.find? (fun t => t._id == tid) = some t0 ∧
      (adminVerifyHandler db p tid n1).1 = .ok (verifyUpdate n1 t0) ∧
      (adminVerifyHandler (adminVerifyHandler db p tid n1).2 p tid n2).1
        = .ok (verifyUpdate n2 (verifyUpdate n1 t0)) ∧
      (verifyUpdate n1 t0).status = "completed" ∧
      (verifyUpdate n1 t0).is_processed = true ∧
      (verifyUpdate n2 (verifyUpdate n1 t0)).status = "completed" ∧
      (verifyUpdate n2 (verifyUpdate n1 t0)).is_processed = true ∧
      ((adminVerifyHandler db p tid n1).2.payment_transactions.find?
          (fun t => t._id == tid) = some (verifyUpdate n1 t0)) ∧
      ((adminVerifyHandler (adminVerifyHandler db p tid n1).2 p tid n2).2.payment_transactions.find?
          (fun t => t._id == tid) = some (verifyUpdate n2 (verifyUpdate n1 t0))) := by
  have hid : ∀ t : TxDoc, ∀ n : Nat, (verifyUpdate n t)._id = t._id := fun _ _ => rfl
  have hpf : ∀ n : Nat, ∀ t : TxDoc, (t._id == tid) = true →
      ((verifyUpdate n t)._id == tid) = true := by
    intro n t h
    exact h
  have hsome : (db.payment_transactions.find? (fun t => t._id == tid)).isSome := by
    apply List.find?_isSome.mpr
    obtain ⟨t, ht, hid2⟩ := hex
    refine ⟨t, ht, ?_⟩
    simp [hid2]
  obtain ⟨t0, ht0⟩ := Option.isSome_iff_exists.mp hsome
  refine ⟨t0, ht0, ?_⟩
  have hrun1 : adminVerifyHandler db p tid n1 =
      (.ok (verifyUpdate n1 t0),
       { db with payment_transactions :=
           (updateFirst (fun t => t._id == tid) (verifyUpdate n1)
             db.payment_transactions) }) := by
    simp [adminVerifyHandler, hstaff, ht0]
  have hfind1 : (updateFirst (fun t => t._id == tid) (verifyUpdate n1)
      db.payment_transactions).find? (fun t => t._id == tid)
        = some (verifyUpdate n1 t0) :=
    find?_updateFirst _ _ (hpf n1) db.payment_transactions t0 ht0
  have hrun2 : adminVerifyHandler (adminVerifyHandler db p tid n1).2 p tid n2 =
      (.ok (verifyUpdate n2 (verifyUpdate n1 t0)),
       { db with payment_transactions :=
           (updateFirst (fun t => t._id == tid) (verifyUpdate n2)
             (updateFirst (fun t => t._id == tid) (verifyUpdate n1)
               db.payment_transactions)) }) := by
    rw [hrun1]
    simp [adminVerifyHandler, hstaff, hfind1]
  have hfind2 : (updateFirst (fun t => t._id == tid) (verifyUpdate n2)
      (updateFirst (fun t => t._id == tid) (verifyUpdate n1)
        db.payment_transactions)).find? (fun t => t._id == tid)
        = some (verifyUpdate n2 (verifyUpdate n1 t0)) :=
    find?_updateFirst _ _ (hpf n2) _ (verifyUpdate n1 t0) hfind1
  refine ⟨by rw [hrun1], by rw [hrun2], rfl, rfl, rfl, rfl, ?_, ?_⟩
  · rw [hrun1]
    exact hfind1
  · rw [hrun2]
    exact hfind2

/-- C7 (amended): `listForUser` returns exactly the transactions owned by
the principal — on the Mongo backend sorted by `created_at` descending and
capped at 50, while on the in-memory fallback `sort()` and `limit()` are
no-ops, so the matching transactions come back in insertion order and
uncapped. -/
theorem listForUser_filter_sort_cap (db : Db) (p : Principal) :
    historyHandlerMem db p =
      .ok (db.payment_transactions.filter fun t => t.user_id == p.uid) ∧
    (∀ t ∈ historyMongo db p, t.user_id = p.uid) ∧
    (historyMongo db p).Sorted (fun a b => b.created_at ≤ a.created_at) ∧
    (historyMongo db p).length ≤ 50 ∧
    ((db.payment_transactions.filter fun t => t.user_id == p.uid).length ≤ 50 →
      (historyMongo db p).Perm
        (db.payment_transactions.filter fun t => t.user_id == p.uid)) := by
  refine ⟨rfl, ?_, ?_, ?_, ?_⟩
  · intro t ht
    have hmem : t ∈ sortDescBy (fun t => t.created_at)
        (db.payment_transactions.filter fun t => t.user_id == p.uid) :=
      (List.take_sublist _ _).subset ht
    have : t ∈ db.payment_transactions.filter fun t => t.user_id == p.uid :=
      (sortDescBy_perm _ _).subset hmem
    have := (List.mem_filter.mp this).2
    simpa using this
  · exact List.Pairwise.sublist (List.take_sublist _ _)
      (sortDescBy_sorted (fun t : TxDoc => t.created_at)
        (db.payment_transactions.filter fun t => t.user_id == p.uid))
  · exact List.length_take_le _ _
  · intro hlen
    have hlen2 : (sortDescBy (fun t => t.created_at)
        (db.payment_transactions.filter fun t => t.user_id == p.uid)).length ≤ 50 := by
      rw [(sortDescBy_perm _ _).length_eq]
      exact hlen
    rw [historyMongo, List.take_of_length_le hlen2]
    exact sortDescBy_perm _ _

/-- Witness for C5: a store holding a transaction owned by `other` and an
empty store give the authenticated non-staff user `u1` the same 404. -/
theorem getById_enumeration_safe_witness :
    getPaymentMem c5Db1 c5P1 "tid1" = .err 404 "Transaction not found" ∧
    getPaymentMem c5Db1 c5P1 "tid1" = getPaymentMem c5Db2 c5P1 "tid1" ∧
    getPaymentBase (fun _ => true) c5Db1 c5P1 "tid1"
      = getPaymentBase (fun _ => true) c5Db2 c5P1 "tid1" := by
  have h := getById_enumeration_safe (fun _ => true) c5Db1 c5Db2 c5P1 c5P1
    "tid1" (by decide) (by decide) (by decide) rfl
  exact ⟨h.1, h.2.2.1, h.2.2.2.2.2⟩

/-- Witness for C6: verifying the pending transaction `tid1` twice from a
staff principal. -/
theorem verify_twice_idempotent_witness :
    ∃ t0, c6Db.payment_transactions.find? (fun t => t._id == "tid1") = some t0 ∧
      (adminVerifyHandler c6Db c6Staff "tid1" 5).1 = .ok (verifyUpdate 5 t0) ∧
      (adminVerifyHandler (adminVerifyHandler c6Db c6Staff "tid1" 5).2 c6Staff "tid1" 9).1
        = .ok (verifyUpdate 9 (verifyUpdate 5 t0)) ∧
      (verifyUpdate 5 t0).status = "completed" ∧
      (verifyUpdate 5 t0).is_processed = true ∧
      (verifyUpdate 9 (verifyUpdate 5 t0)).status = "completed" ∧
      (verifyUpdate 9 (verifyUpdate 5 t0)).is_processed = true ∧
      ((adminVerifyHandler c6Db c6Staff "tid1" 5).2.payment_transactions.find?
          (fun t => t._id == "tid1") = some (verifyUpdate 5 t0)) ∧
      ((adminVerifyHandler (adminVerifyHandler c6Db c6Staff "tid1" 5).2 c6Staff "tid1" 9).2.payment_transactions.find?
          (fun t => t._id == "tid1") = some (verifyUpdate 9 (verifyUpdate 5 t0))) :=
  verify_twice_idempotent c6Db c6Staff "tid1" 5 9 rfl ⟨c5Tx, by decide⟩

/-- Witness for C7 (amended): on a one-transaction store the in-memory
history is exactly the owned transactions and the Mongo history is a
permutation of them. -/
theorem listForUser_filter_sort_cap_witness :
    historyHandlerMem c5Db1 c5POther = .ok [c5Tx] ∧
    (historyMongo c5Db1 c5POther).Perm [c5Tx] := by
  have h := listForUser_filter_sort_cap c5Db1 c5POther
  have hfil : (c5Db1.payment_transactions.filter fun t => t.user_id == c5POther.uid)
      = [c5Tx] := by decide
  constructor
  · rw [h.1, hfil]
  · have hp := h.2.2.2.2 (by rw [hfil]; decide)
    rw [hfil] at hp
    exact hp

/-- Counterexample to C7 as stated: on the in-memory backend
`GET /api/payments/history` returns the owner's transactions in insertion
order — ascending `created_at` here, so not sorted descending — and a store
with 51 owned transactions yields 51 rows, above the claimed cap of 50. -/
theorem listForUser_mem_unsorted_uncapped :
    historyHandlerMem c7Db2 c7P = .ok [c7Tx 0, c7Tx 1] ∧
    ¬ ([c7Tx 0, c7Tx 1].Sorted fun a b => b.created_at ≤ a.created_at) ∧
    historyHandlerMem c7Db51 c7P = .ok ((List.range 51).map c7Tx) ∧
    ((List.range 51).map c7Tx).length = 51 := by
  refine ⟨by decide, ?_, ?_, by simp⟩
  · intro hs
    have := (List.sorted_cons.mp hs).1 (c7Tx 1) (by simp)
    simp [c7Tx] at this
  · have hall : ∀ t ∈ c7Db51.payment_transactions, (t.user_id == c7P.uid) = true := by
      intro t ht
      obtain ⟨i, _, rfl⟩ := List.mem_map.mp ht
      rfl
    simp only [historyHandlerMem]
    rw [List.filter_eq_self.mpr hall]
    rfl

/-- C9: a user created through `POST /api/auth/register` is a non-staff
principal on either server variant — the extended variant stores
`is_staff: false`, the base variant stores no `is_staff` field — and with
such a user's credential, resolved through either the session or the
signed-token path, both `/api/admin` endpoints respond 403 Forbidden and
leave the store untouched. -/
theorem register_creates_non_staff
    (id email hash : String) (now : Nat) (db : Db) (q : Option String)
    (s : SessionDoc) (tid : String) (vnow : Nat) :
    (registerUserExtended id email hash now).is_staff = some false ∧
    (registerUserBase id email hash now).is_staff = none ∧
    (mkSessionPrincipal s (registerUserExtended id email hash now)).is_staff = false ∧
    (mkJwtPrincipal (registerUserExtended id email hash now)).is_staff = false ∧
    (mkSessionPrincipal s (registerUserBase id email hash now)).is_staff = false ∧
    (mkJwtPrincipal (registerUserBase id email hash now)).is_staff = false ∧
    adminTransactionsMem db (mkSessionPrincipal s (registerUserExtended id email hash now)) q
      = .err 403 "Forbidden" ∧
    adminTransactionsMem db (mkJwtPrincipal (registerUserExtended id email hash now)) q
      = .err 403 "Forbidden" ∧
    adminTransactionsMem db (mkSessionPrincipal s (registerUserBase id email hash now)) q
      = .err 403 "Forbidden" ∧
    adminTransactionsMem db (mkJwtPrincipal (registerUserBase id email hash now)) q
      = .err 403 "Forbidden" ∧
    adminVerifyHandler db (mkSessionPrincipal s (registerUserExtended id email hash now)) tid vnow
      = (.err 403 "Forbidden", db) ∧
    adminVerifyHandler db (mkJwtPrincipal (registerUserExtended id email hash now)) tid vnow
      = (.err 403 "Forbidden", db) ∧
    adminVerifyHandler db (mkSessionPrincipal s (registerUserBase id email hash now)) tid vnow
      = (.err 403 "Forbidden", db) ∧
    adminVerifyHandler db (mkJwtPrincipal (registerUserBase id email hash now)) tid vnow
      = (.err 403 "Forbidden", db) :=
  ⟨rfl, rfl, rfl, rfl, rfl, rfl, rfl, rfl, rfl, rfl, rfl, rfl, rfl, rfl⟩

/-- Counterexample to C3 as stated: on the in-memory backend, inserting a
second user with an already-stored email succeeds silently — `insertOne`
performs no uniqueness check — so both duplicate records end up stored. -/
theorem inMemory_insert_duplicate_email_stored :
    memInsertUser [c3U1] c3U2 = [c3U1, c3U2] ∧
    ((memInsertUser [c3U1] c3U2).filter fun u => u.email == "dup@x.com").length = 2 := by
  exact ⟨rfl, by decide⟩

/-- C3 (amended): the Mongo backend rejects an insert that collides on
`users.email`, `user_sessions.session_token` or
`payment_transactions.reference_number` with a duplicate-key error, and a
successful insert preserves uniqueness of those fields; the in-memory
fallback's `insertOne` stores the document unconditionally (its
`createIndex` is a no-op), so duplicates are possible there. -/
theorem store_unique_indexes_mongo_only
    (lu : List UserDoc) (u : UserDoc) (ls : List SessionDoc) (s : SessionDoc)
    (lt : List TxDoc) (t : TxDoc) :
    ((∃ v ∈ lu, v.email = u.email) →
      mongoInsertUser lu u = .error "E11000 duplicate key: users.email") ∧
    (∀ l2, mongoInsertUser lu u = .ok l2 →
      (lu.map (·.email)).Nodup → (l2.map (·.email)).Nodup) ∧
    ((∃ v ∈ ls, v.session_token = s.session_token) →
      mongoInsertSession ls s
        = .error "E11000 duplicate key: user_sessions.session_token") ∧
    (∀ l2, mongoInsertSession ls s = .ok l2 →
      (ls.map (·.session_token)).Nodup → (l2.map (·.session_token)).Nodup) ∧
    ((∃ v ∈ lt, v.reference_number = t.reference_number) →
      mongoInsertTx lt t
        = .error "E11000 duplicate key: payment_transactions.reference_number") ∧
    (∀ l2, mongoInsertTx lt t = .ok l2 →
      (lt.map (·.reference_number)).Nodup → (l2.map (·.reference_number)).Nodup) ∧
    memInsertUser lu u = lu ++ [u] ∧
    memInsertSession ls s = ls ++ [s] ∧
    memInsertTx lt t = lt ++ [t] := by
  have dupUser : (∃ v ∈ lu, v.email = u.email) →
      mongoInsertUser lu u = .error "E11000 duplicate key: users.email" := by
    intro ⟨v, hv, he⟩
    have : lu.any (fun v => v.email == u.email) = true :=
      List.any_eq_true.mpr ⟨v, hv, by simp [he]⟩
    simp [mongoInsertUser, this]
  have okUser : ∀ l2, mongoInsertUser lu u = .ok l2 →
      (lu.map (·.email)).Nodup → (l2.map (·.email)).Nodup := by
    intro l2 hok hnd
    by_cases hdup : lu.any (fun v => v.email == u.email) = true
    · simp [mongoInsertUser, hdup] at hok
    · have hnotin : u.email ∉ lu.map (·.email) := by
        intro hmem
        obtain ⟨v, hv, he⟩ := List.mem_map.mp hmem
        exact hdup (List.any_eq_true.mpr ⟨v, hv, by simp [he]⟩)
      have hl2 : l2 = lu ++ [u] := by
        rw [mongoInsertUser, if_neg (by simp [hdup])] at hok
        split at hok
        · simp at hok
        · exact ((Except.ok.injEq _ _).mp hok).symm
      subst hl2
      rw [List.map_append]
      rw [List.nodup_append]
      refine ⟨hnd, List.nodup_singleton _, ?_⟩
      intro e he1 he2
      simp only [List.map_cons, List.map_nil, List.mem_singleton] at he2
      subst he2
      exact hnotin he1
  have dupSession : (∃ v ∈ ls, v.session_token = s.session_token) →
      mongoInsertSession ls s
        = .error "E11000 duplicate key: user_sessions.session_token" := by
    intro ⟨v, hv, he⟩
    have : ls.any (fun v => v.session_token == s.session_token) = true :=
      List.any_eq_true.mpr ⟨v, hv, by simp [he]⟩
    simp [mongoInsertSession, this]
  have okSession : ∀ l2, mongoInsertSession ls s = .ok l2 →
      (ls.map (·.session_token)).Nodup → (l2.map (·.session_token)).Nodup := by
    intro l2 hok hnd
    by_cases hdup : ls.any (fun v => v.session_token == s.session_token) = true
    · simp [mongoInsertSession, hdup] at hok
    · have hnotin : s.session_token ∉ ls.map (·.session_token) := by
        intro hmem
        obtain ⟨v, hv, he⟩ := List.mem_map.mp hmem
        exact hdup (List.any_eq_true.mpr ⟨v, hv, by simp [he]⟩)
      have hl2 : l2 = ls ++ [s] := by
        rw [mongoInsertSession, if_neg (by simp [hdup])] at hok
        exact ((Except.ok.injEq _ _).mp hok).symm
      subst hl2
      rw [List.map_append, List.nodup_append]
      refine ⟨hnd, List.nodup_singleton _, ?_⟩
      intro e he1 he2
      simp only [List.map_cons, List.map_nil, List.mem_singleton] at he2
      subst he2
      exact hnotin he1
  have dupTx : (∃ v ∈ lt, v.reference_number = t.reference_number) →
      mongoInsertTx lt t
        = .error "E11000 duplicate key: payment_transactions.reference_number" := by
    intro ⟨v, hv, he⟩
    have : lt.any (fun v => v.reference_number == t.reference_number) = true :=
      List.any_eq_true.mpr ⟨v, hv, by simp [he]⟩
    simp [mongoInsertTx, this]
  have okTx : ∀ l2, mongoInsertTx lt t = .ok l2 →
      (lt.map (·.reference_number)).Nodup → (l2.map (·.reference_number)).Nodup := by
    intro l2 hok hnd
    by_cases hdup : lt.any (fun v => v.reference_number == t.reference_number) = true
    · simp [mongoInsertTx, hdup] at hok
    · have hnotin : t.reference_number ∉ lt.map (·.reference_number) := by
        intro hmem
        obtain ⟨v, hv, he⟩ := List.mem_map.mp hmem
        exact hdup (List.any_eq_true.mpr ⟨v, hv, by simp [he]⟩)
      have hl2 : l2 = lt ++ [t] := by
        rw [mongoInsertTx, if_neg (by simp [hdup])] at hok
        exact ((Except.ok.injEq _ _).mp hok).symm
      subst hl2
      rw [List.map_append, List.nodup_append]
      refine ⟨hnd, List.nodup_singleton _, ?_⟩
      intro e he1 he2
      simp only [List.map_cons, List.map_nil, List.mem_singleton] at he2
      subst he2
      exact hnotin he1
  exact ⟨dupUser, okUser, dupSession, okSession, dupTx, okTx, rfl, rfl, rfl⟩

/-- Witness for C3 (amended): the duplicate-email insert that the in-memory
backend accepts is rejected by the Mongo backend, and inserting a fresh
email succeeds there. -/
theorem store_unique_indexes_mongo_only_witness :
    mongoInsertUser [c3U1] c3U2 = .error "E11000 duplicate key: users.email" ∧
    memInsertUser [c3U1] c3U2 = [c3U1] ++ [c3U2] ∧
    ([c3U1, c3U2].map (fun u => u.email)).Nodup = False := by
  have h := store_unique_indexes_mongo_only [c3U1] c3U2 [] c1Session [] c5Tx
  refine ⟨h.1 ⟨c3U1, by decide⟩, h.2.2.2.2.2.2.1, ?_⟩
  simp only [eq_iff_iff, iff_false]
  decide

/-- C4 (the code's slip): for the reachable draw `Math.random() = 0.5` —
whose base-36 rendering is `"0.i"`, one fractional digit — the generated
reference is `INT123456I`: 10 characters, not the 15-character
`INT\d{6}[A-Z0-9]{6}` shape the specification promises for every draw. -/
theorem generateReferenceNumber_short_on_terminating_draw :
    generateReferenceNumber 1759999123456 (2 ^ 52) = "INT123456I" ∧
    (generateReferenceNumber 1759999123456 (2 ^ 52)).length = 10 ∧
    refPatternOk (generateReferenceNumber 1759999123456 (2 ^ 52)) = false := by
  refine ⟨by decide, by decide, by decide⟩

/-- C8: whenever `createPayment` responds 200, the returned
`transactionFee` and the stored `transaction_fee` are both exactly
`amount * 0.02` (exact arithmetic: JavaScript numbers are modelled as
rationals); in particular an amount of 1500 yields exactly 30. -/
theorem createPayment_fee_two_percent (rl : RateMap) (db : Db) (p : Principal)
    (r : CreatePaymentReq) (ip : String) (now : Nat) (txId refNum : String)
    (d : PayRespData)
    (hok : (createPaymentHandler rl db p r ip now txId refNum).1 = .ok d) :
    d.transactionFee = r.amount * (2 / 100) ∧
    (∃ tx, (createPaymentHandler rl db p r ip now txId refNum).2.1.payment_transactions
        = db.payment_transactions ++ [tx] ∧
      tx.transaction_fee = r.amount * (2 / 100) ∧
      tx.transaction_fee = d.transactionFee ∧
      tx.status = "pending" ∧ d.status = "pending") ∧
    (r.amount = 1500 → d.transactionFee = 30) := by
  simp only [createPaymentHandler] at hok ⊢
  split at hok
  next hc1 => simp at hok
  next hc1 =>
    split at hok
    next hc2 => simp at hok
    next hc2 =>
      split at hok
      next hc3 => simp at hok
      next hc3 =>
        split at hok
        next hc4 => simp at hok
        next hc4 =>
          split at hok
          next hc5 => simp at hok
          next hc5 =>
            rw [if_neg hc1, if_neg hc2, if_neg hc3, if_neg hc4, if_neg hc5]
            have hd := ((ApiResp.ok.injEq _ _).mp hok)
            subst hd
            refine ⟨rfl, ⟨_, rfl, rfl, rfl, rfl, rfl⟩, ?_⟩
            intro h1500
            simp only [h1500]
            norm_num

/-- Witness for C8: the end-to-end request of the spec (amount 1500) is
accepted and carries fee exactly 30. -/
theorem createPayment_fee_two_percent_witness :
    ((createPaymentHandler [] c5Db2 c8P c8Req "203.0.113.4" 0 "t1" "INTREF").1
      = .ok ⟨"t1", "INTREF", c8Req.amount * (2 / 100), "pending"⟩) ∧
    (⟨"t1", "INTREF", c8Req.amount * (2 / 100), "pending"⟩ : PayRespData).transactionFee
      = 30 := by
  have hok : (createPaymentHandler [] c5Db2 c8P c8Req "203.0.113.4" 0 "t1" "INTREF").1
      = .ok ⟨"t1", "INTREF", c8Req.amount * (2 / 100), "pending"⟩ := rfl
  have h := createPayment_fee_two_percent [] c5Db2 c8P c8Req "203.0.113.4" 0
    "t1" "INTREF" ⟨"t1", "INTREF", c8Req.amount * (2 / 100), "pending"⟩ hok
  exact ⟨hok, h.2.2 rfl⟩

/-- C10: for every request that passes `CreatePaymentSchema` (which demands
a valid `swift_code`), the document persisted by the base server variant
contains no `swift_code` key at all, while the extended variant persists
the submitted value. -/
theorem base_variant_drops_swift_code (p : Principal) (r : CreatePaymentReq)
    (refNum : String) (now : Nat)
    (hschema : CreatePaymentSchemaOk r = true) :
    (basePaymentDoc p r refNum now).lookup? "swift_code" = none ∧
    (extendedPaymentDoc p r refNum now).lookup? "swift_code"
      = some (.str r.swift_code) := by
  constructor
  · rfl
  · have hlen : r.swift_code.toList.length = 8 ∨ r.swift_code.toList.length = 11 := by
      simp only [CreatePaymentSchemaOk, Bool.and_eq_true, Bool.or_eq_true,
        beq_iff_eq] at hschema
      rcases hschema.1.1.1.2.1.1 with h | h
      · exact Or.inl h
      · exact Or.inr h
    have hne : (r.swift_code == "") = false := by
      rw [beq_eq_false_iff_ne]
      intro he
      rw [he] at hlen
      simp at hlen
    simp only [extendedPaymentDoc, JsDoc.lookup?, List.find?]
    simp only [jsStrOrNullV, hne]
    rfl

/-- Witness for C10 at the spec's end-to-end request. -/
theorem base_variant_drops_swift_code_witness :
    (basePaymentDoc c8P c10Req "INTREF" 0).lookup? "swift_code" = none ∧
    (extendedPaymentDoc c8P c10Req "INTREF" 0).lookup? "swift_code"
      = some (.str "NWBKGB2L") :=
  base_variant_drops_swift_code c8P c10Req "INTREF" 0 (by decide)

end SecurePay
